import Mathlib

/-! Shallow embedding of vex.h, a single-header C99 argument parsing library.

Modelling conventions:
* C strings are NUL-free lists of characters (`CStr := List Char`); a NULL
  pointer is `Option.none` wherever the source distinguishes it from a valid
  string.  Descriptor long names are modelled as always present: the source
  calls `strcmp`/`strncmp` on them unconditionally, which is undefined
  behaviour for NULL, so NULL long names are outside the model.
* C `int` is modelled as unbounded `Int` (`atoi` overflow is undefined
  behaviour in C and outside the model).
* Memory allocation always succeeds: the `VEX_STATUS_BAD_ALLOC` early-return
  paths of the source are never taken.  Capacity bookkeeping
  (`capacity_arg_desc`, `capacity_arg_token`, geometric doubling) only affects
  allocation and is subsumed by plain lists; `num_arg_desc`/`num_arg_token`
  are the list lengths.
* `double` values are not modelled numerically: `atof` is represented by
  recording the text it was applied to.
* `_vex_set_status` formats its varargs message into a fresh buffer; the
  model receives the already-formatted text at each call site.
-/

/-! Argument type constants, vex.h lines 33-37. -/

def VEX_ARG_TYPE_UNKNOWN : Int := 0

def VEX_ARG_TYPE_FLAG : Int := 1

def VEX_ARG_TYPE_INT : Int := 2

def VEX_ARG_TYPE_DUB : Int := 3

def VEX_ARG_TYPE_STR : Int := 4

/-! Parser status constants, vex.h lines 40-43. -/

def VEX_STATUS_OK : Int := 0

def VEX_STATUS_BAD_ALLOC : Int := 1

def VEX_STATUS_BAD_VALUE : Int := 2

def VEX_STATUS_UNKNOWN_ARG : Int := 3

abbrev CStr := List Char

def charNul : Char := Char.ofNat 0

/-- C `isalpha` in the default locale (ASCII letters). -/
def cIsAlpha (c : Char) : Bool :=
  (65 ≤ c.toNat && c.toNat ≤ 90) || (97 ≤ c.toNat && c.toNat ≤ 122)

/-- C `isdigit`. -/
def cIsDigit (c : Char) : Bool := 48 ≤ c.toNat && c.toNat ≤ 57

/-- C `isspace` (space, tab, newline, vertical tab, form feed, carriage return). -/
def cIsSpace (c : Char) : Bool := c.toNat = 32 || (9 ≤ c.toNat && c.toNat ≤ 13)

/-- The union `vex_value`, vex.h lines 62-66, as a sum.  `v0` is the
zero-initialized union that no switch case has written (the source's
`vex_value value = { 0 }` when `arg_type` matches no case). -/
inductive vex_value where
  | v0 : vex_value
  | int_arg : Int → vex_value
  | dub_arg : CStr → vex_value
  | str_arg : CStr → vex_value
  deriving DecidableEq

/-- `vex_arg_token`, vex.h lines 68-74.  `arg` holds the accumulated values
(`arg_count` is its length); `long_name = none` models the NULL pointer of a
zero-initialized token. -/
structure vex_arg_token where
  long_name : Option CStr
  short_name : Char
  arg : List vex_value
  arg_type : Int
  deriving DecidableEq

/-- `vex_arg_desc`, vex.h lines 76-82. -/
structure vex_arg_desc where
  description : Option CStr
  long_name : CStr
  short_name : Char
  arg_type : Int
  max_count : Int
  deriving DecidableEq

/-- `vex_ctx`, vex.h lines 84-97.  The `name`/`description`/`version` strings
and the capacity fields do not affect registration or parsing and are
omitted. -/
structure vex_ctx where
  arg_desc : List vex_arg_desc
  arg_token : List vex_arg_token
  status : Int
  status_msg : Option CStr
  help_msg : Option CStr
  deriving DecidableEq

/-- `_vex_set_status`, vex.h lines 556-570: stores the status; keeps a
formatted message only for statuses other than OK/BAD_ALLOC when a format
string was supplied, otherwise clears the message. -/
def setStatus (ctx : vex_ctx) (status : Int) (msg : Option CStr) : vex_ctx :=
  if status ≠ VEX_STATUS_OK ∧ status ≠ VEX_STATUS_BAD_ALLOC ∧ msg.isSome then
    { ctx with status := status, status_msg := msg }
  else
    { ctx with status := status, status_msg := none }

/-- `vex_add_arg`, vex.h lines 168-217.  The source's second validation
(`short_name == '\0' && !desc.long_name`) is unreachable: `isalpha` already
rejected the NUL character, so it is not modelled.  On success the descriptor
is appended (the source copies each field through `_vex_strdup`) and the
cached help text is invalidated. -/
def vex_add_arg (ctx : vex_ctx) (desc : vex_arg_desc) : vex_ctx × Bool :=
  if !(cIsAlpha desc.short_name) then
    (setStatus ctx VEX_STATUS_BAD_VALUE
      (some (("Invalid short arg name: ").data ++ [desc.short_name])), false)
  else
    match ctx.arg_desc.find? (fun d =>
        d.short_name == desc.short_name || d.long_name == desc.long_name) with
    | some _ =>
      (setStatus ctx VEX_STATUS_BAD_VALUE
        (some (if desc.short_name = charNul then
            ("Duplicate arguments: --").data ++ desc.long_name
          else ("Duplicate arguments: -").data ++ [desc.short_name])), false)
    | none =>
      ({ ctx with arg_desc := ctx.arg_desc ++ [desc], help_msg := none }, true)

def helpDesc : vex_arg_desc :=
  { description := some ("Print this help message").data, long_name := ("help").data,
    short_name := 'h', arg_type := VEX_ARG_TYPE_FLAG, max_count := 0 }

def versionDesc : vex_arg_desc :=
  { description := some ("Print the version string").data, long_name := ("version").data,
    short_name := 'v', arg_type := VEX_ARG_TYPE_FLAG, max_count := 0 }

/-- `vex_init`, vex.h lines 127-166: fresh context with status OK and the two
default flags `-h` (`--help`) and `-v` (`--version`) registered.  The caller-supplied
name/version/description strings do not affect registration or parsing. -/
def vex_init : vex_ctx :=
  (vex_add_arg (vex_add_arg
      { arg_desc := [], arg_token := [], status := VEX_STATUS_OK,
        status_msg := none, help_msg := none }
      helpDesc).1 versionDesc).1

/-- `strncmp(a, b, n) == 0` for NUL-free strings: the first `n` characters
agree, where a string that ends earlier must be matched by the other ending
at the same place. -/
def strncmpEq : CStr → CStr → Nat → Bool
  | _, _, 0 => true
  | [], [], _ + 1 => true
  | [], _ :: _, _ + 1 => false
  | _ :: _, [], _ + 1 => false
  | a :: xs, b :: ys, n + 1 => a == b && strncmpEq xs ys n

/-- `strcspn(tl, "=")`: number of characters of `tl` before the first `=`. -/
def longSpan (tl : CStr) : Nat := (tl.takeWhile fun c => c != '=').length

/-- First descriptor (with its index) satisfying `p`, scanning left to right
like the source's `for (int d = 0; ...)` loops. -/
def findWithIdx (p : vex_arg_desc → Bool) : Nat → List vex_arg_desc → Option (Nat × vex_arg_desc)
  | _, [] => none
  | i, d :: ds => if p d then some (i, d) else findWithIdx p (i + 1) ds

/-- The long-option search of vex.h lines 249-258: first descriptor `d` with
`strncmp(&arg[2], d.long_name, strcspn(&arg[2], "=")) == 0`. -/
def findLongIdx (descs : List vex_arg_desc) (tl : CStr) : Option (Nat × vex_arg_desc) :=
  findWithIdx (fun d => strncmpEq tl d.long_name (longSpan tl)) 0 descs

/-- `strchr(s, ch)` followed by `+ 1`: the text after the first occurrence of
`ch`, or `none` when absent. -/
def strchrAfter : CStr → Char → Option CStr
  | [], _ => none
  | c :: rest, ch => if c = ch then some rest else strchrAfter rest ch

def atoiDigits : CStr → Int → Int
  | [], acc => acc
  | c :: rest, acc =>
    if cIsDigit c then atoiDigits rest (acc * 10 + ((c.toNat : Int) - 48)) else acc

/-- C `atoi`: skip leading whitespace, optional sign, then decimal digits
(unbounded; overflow is undefined behaviour in C and outside the model). -/
def atoi (s : CStr) : Int :=
  match s.dropWhile cIsSpace with
  | [] => 0
  | c :: rest =>
    if c = '-' then - atoiDigits rest 0
    else if c = '+' then atoiDigits rest 0
    else atoiDigits (c :: rest) 0

/-- The `switch (type)` conversion appearing at vex.h lines 271-275, 310-314,
364-368 and 376-380: convert text to the declared value type; a type matching
no case leaves the zero-initialized union. -/
def convValue (ty : Int) (s : CStr) : vex_value :=
  if ty = VEX_ARG_TYPE_INT then vex_value.int_arg (atoi s)
  else if ty = VEX_ARG_TYPE_DUB then vex_value.dub_arg s
  else if ty = VEX_ARG_TYPE_STR then vex_value.str_arg s
  else vex_value.v0

/-- The character scan of vex.h lines 334-348 carrying the running `type`. -/
def inferTypeGo : CStr → Int → Int
  | [], ty => ty
  | c :: rest, ty =>
    if !(cIsDigit c) then
      if c = '.' then inferTypeGo rest VEX_ARG_TYPE_DUB else VEX_ARG_TYPE_STR
    else if ty ≠ VEX_ARG_TYPE_DUB then inferTypeGo rest VEX_ARG_TYPE_INT
    else inferTypeGo rest ty

/-- Type inferred for a free-standing value (starts at `VEX_ARG_TYPE_UNKNOWN`,
which an empty argument never leaves). -/
def inferType (arg : CStr) : Int := inferTypeGo arg VEX_ARG_TYPE_UNKNOWN

/-- The loop state of `vex_parse`, vex.h lines 226-229: the context being
filled, the `last_desc`/`last_token` indices (C's `-1` sentinel is `none`)
and the `parse_options` switch.  (`token_count` is written but never read by
the source and is omitted.) -/
structure ParseState where
  ctx : vex_ctx
  last_desc : Option Nat
  last_token : Option Nat
  parse_options : Bool
  deriving DecidableEq

/-- State at the top of `vex_parse`, vex.h lines 220-229: previous tokens
discarded, sentinels reset, option parsing on.  The status is NOT touched. -/
def initState (ctx : vex_ctx) : ParseState :=
  { ctx := { ctx with arg_token := [] }, last_desc := none, last_token := none,
    parse_options := true }

/-- Fresh token taking the matching descriptor's names and type (the
`vex_arg_token token = { 0 }` filled at vex.h lines 252-254 and 294-296). -/
def descTok (dsc : vex_arg_desc) : vex_arg_token :=
  { long_name := some dsc.long_name, short_name := dsc.short_name,
    arg := [], arg_type := dsc.arg_type }

/-- Token produced by the long-option branch: for a non-Flag with a `=`
present in the argument, the text after the first `=` is converted to the
declared type and becomes the (empty) token's single value, vex.h lines
266-278. -/
def longTok (dsc : vex_arg_desc) (arg : CStr) : vex_arg_token :=
  if dsc.arg_type ≠ VEX_ARG_TYPE_FLAG then
    match strchrAfter arg '=' with
    | some rest => { descTok dsc with arg := [convValue dsc.arg_type rest] }
    | none => descTok dsc
  else descTok dsc

/-- Store a token (`_vex_add_token`, always successful in the model) and make
it the last token with its descriptor index, vex.h lines 280-283 and
323-328. -/
def pushTok (st : ParseState) (d : Nat) (tok : vex_arg_token) : ParseState :=
  { st with
    ctx := { st.ctx with arg_token := st.ctx.arg_token ++ [tok] },
    last_desc := some d,
    last_token := some ((st.ctx.arg_token ++ [tok]).length - 1) }

/-- Append a value to the token stored at index `ti` (known to hold `tok`):
`_vec_token_add_value` applied through the `arg_token` buffer. -/
def setTokValue (l : List vex_arg_token) (ti : Nat) (tok : vex_arg_token) (v : vex_value) :
    List vex_arg_token :=
  l.set ti { tok with arg := tok.arg ++ [v] }

/-- Long-option handling, vex.h lines 245-284.  `tl` is `&arg[2]`.  No
matching descriptor leaves the token's long name NULL, detected as
UnknownArgument; otherwise the token is stored and becomes the last token. -/
def longOption (st : ParseState) (arg tl : CStr) : Except vex_ctx ParseState :=
  match findLongIdx st.ctx.arg_desc tl with
  | none =>
    Except.error (setStatus st.ctx VEX_STATUS_UNKNOWN_ARG
      (some (("Unknown option: ").data ++ arg)))
  | some (d, dsc) =>
    Except.ok (pushTok st d (longTok dsc arg))

/-- Short-option cluster scan, vex.h lines 286-329.  Each matched character
appends a token and becomes the last token; an unmatched character attaches
the remainder of the cluster as a value to a non-Flag last token (stopping
the scan), and otherwise fails with UnknownArgument.  The source indexes
`arg_token[last_token]` unconditionally when `last_token >= 0`; the index is
always in range there, so the out-of-range completion (mapped to the same
error) is unreachable. -/
def shortLoop : ParseState → CStr → Except vex_ctx ParseState
  | st, [] => Except.ok st
  | st, c :: rest =>
    match findWithIdx (fun d => d.short_name == c) 0 st.ctx.arg_desc with
    | some (d, dsc) => shortLoop (pushTok st d (descTok dsc)) rest
    | none =>
      match st.last_token with
      | some ti =>
        match st.ctx.arg_token.get? ti with
        | some tok =>
          if tok.short_name ≠ charNul ∧ tok.arg_type ≠ VEX_ARG_TYPE_FLAG then
            Except.ok { st with ctx := { st.ctx with arg_token := setTokValue st.ctx.arg_token ti tok (convValue tok.arg_type (c :: rest)) } }
          else
            Except.error (setStatus st.ctx VEX_STATUS_UNKNOWN_ARG
              (some (("Unknown option: -").data ++ [c])))
        | none =>
          Except.error (setStatus st.ctx VEX_STATUS_UNKNOWN_ARG
            (some (("Unknown option: -").data ++ [c])))
      | none =>
        Except.error (setStatus st.ctx VEX_STATUS_UNKNOWN_ARG
          (some (("Unknown option: -").data ++ [c])))

/-- Free-standing token creation, vex.h lines 371-385: a descriptor-less
token of the inferred type receives the converted value (the conversion runs
even when the type matched no switch case) and the last-token sentinels are
cleared. -/
def freeStanding (st : ParseState) (arg : CStr) (ty : Int) : Except vex_ctx ParseState :=
  Except.ok { st with
    ctx := { st.ctx with arg_token := st.ctx.arg_token ++
      [{ long_name := none, short_name := charNul,
         arg := [convValue ty arg], arg_type := ty }] },
    last_token := none, last_desc := none }

/-- `group_with_last_token`, vex.h lines 350-355: there is a last token and
its descriptor still has capacity (`max_count` negative or count below it).
The source reads `arg_desc[last_desc]` only guarded by `last_token >= 0`;
whenever `last_token >= 0` holds the parser has also set `last_desc`, and
both indices are in range, so the `false` completions are unreachable. -/
def lastCapacity (st : ParseState) : Bool :=
  match st.last_token, st.last_desc with
  | some ti, some di =>
    match st.ctx.arg_token.get? ti, st.ctx.arg_desc.get? di with
    | some tok, some dsc =>
      decide (dsc.max_count < 0) || decide ((tok.arg.length : Int) < dsc.max_count)
    | _, _ => false
  | _, _ => false

/-- Free-standing value handling, vex.h lines 332-386: infer the type; if
option parsing is on and the last token still has capacity, a type mismatch
is a hard InvalidValue failure and a match appends the value to the last
token; otherwise a separate descriptor-less token is created. -/
def freeValue (st : ParseState) (arg : CStr) : Except vex_ctx ParseState :=
  if st.parse_options = true ∧ lastCapacity st = true then
    match st.last_token with
    | some ti =>
      match st.ctx.arg_token.get? ti with
      | some tok =>
        if tok.arg_type ≠ inferType arg then
          Except.error (setStatus st.ctx VEX_STATUS_BAD_VALUE
            (some ("Unexpected value").data))
        else
          Except.ok { st with ctx := { st.ctx with arg_token := setTokValue st.ctx.arg_token ti tok (convValue (inferType arg) arg) } }
      | none => freeStanding st arg (inferType arg)
    | none => freeStanding st arg (inferType arg)
  else freeStanding st arg (inferType arg)

/-- One iteration of the argv loop of `vex_parse`, vex.h lines 230-387:
a literal `--` switches option parsing off (this check precedes everything
else, also when parsing is already off); with option parsing on, a leading
`-` selects the long branch (second character `-`) or the short-cluster
branch, both with the last-token sentinels cleared first; every other
argument is a free-standing value. -/
def parseStep (st : ParseState) (arg : CStr) : Except vex_ctx ParseState :=
  if arg = ("--").data then
    Except.ok { st with parse_options := false }
  else if st.parse_options = true ∧ arg.head? = some '-' then
    if arg.get? 1 = some '-' then
      longOption { st with last_desc := none, last_token := none } arg (arg.drop 2)
    else
      shortLoop { st with last_desc := none, last_token := none } (arg.drop 1)
  else freeValue st arg

def parseLoop : ParseState → List CStr → Except vex_ctx ParseState
  | st, [] => Except.ok st
  | st, a :: rest =>
    match parseStep st a with
    | Except.ok st2 => parseLoop st2 rest
    | Except.error c => Except.error c

/-- `vex_parse`, vex.h lines 219-389: discard previous tokens (without
touching the status), then run the loop over `argv[1..]` (`argv[0]` is the
program name; NULL argv entries, which the source skips, are not modelled). -/
def vex_parse (ctx : vex_ctx) (argv : List CStr) : vex_ctx × Bool :=
  match parseLoop (initState ctx) argv.tail with
  | Except.ok st => (st.ctx, true)
  | Except.error c => (c, false)

/-- `vex_token_count`, vex.h lines 391-393. -/
def vex_token_count (ctx : vex_ctx) : Int := ctx.arg_token.length

/-- `vex_get_token`, vex.h lines 395-398. -/
def vex_get_token (ctx : vex_ctx) (num : Int) : Option vex_arg_token :=
  if num < 0 ∨ vex_token_count ctx ≤ num then none
  else ctx.arg_token.get? num.toNat

/-- `strcmp(nm, long_name) == 0` where the token's long name may be NULL; the
source's call with NULL is undefined behaviour and unreached by the claims
settled here (the comparison is short-circuited by the length tests). -/
def longNameEq : Option CStr → CStr → Bool
  | none, _ => false
  | some l, nm => l == nm

/-- `vex_arg_found`, vex.h lines 400-408: NULL name gives false; otherwise a
token matches when the name has length one and equals its short name, or has
length above one and equals its long name. -/
def vex_arg_found (ctx : vex_ctx) (name : Option CStr) : Bool :=
  match name with
  | none => false
  | some nm =>
    ctx.arg_token.any fun tok =>
      (nm.length == 1 && nm.get? 0 == some tok.short_name)
      || (decide (1 < nm.length) && longNameEq tok.long_name nm)

/-- Token a free-standing argument produces when it starts its own token:
no names, converted value, inferred type. -/
def freeTok (a : CStr) : vex_arg_token :=
  { long_name := none, short_name := charNul,
    arg := [convValue (inferType a) a], arg_type := inferType a }

/-- The four resolved value kinds (everything except UNKNOWN). -/
def kindResolved (ty : Int) : Bool :=
  ty == VEX_ARG_TYPE_FLAG || ty == VEX_ARG_TYPE_INT ||
  ty == VEX_ARG_TYPE_DUB || ty == VEX_ARG_TYPE_STR

/-- Decimal value denoted by a digit string. -/
def decValue (s : CStr) : Int :=
  List.foldl (fun acc c => acc * 10 + ((c.toNat : Int) - 48)) 0 s

/-! Concrete registries and descriptors used by counterexamples and
witnesses. -/

def versDesc : vex_arg_desc :=
  { description := none, long_name := ("vers").data, short_name := 'c',
    arg_type := VEX_ARG_TYPE_INT, max_count := -1 }

def ctxVers : vex_ctx := (vex_add_arg vex_init versDesc).1

def countDesc : vex_arg_desc :=
  { description := none, long_name := ("count").data, short_name := 'c',
    arg_type := VEX_ARG_TYPE_INT, max_count := -1 }

def ctxCount : vex_ctx := (vex_add_arg vex_init countDesc).1

def inputDesc : vex_arg_desc :=
  { description := none, long_name := ("input").data, short_name := 'i',
    arg_type := VEX_ARG_TYPE_STR, max_count := -1 }

def ctxInput : vex_ctx := (vex_add_arg vex_init inputDesc).1

/-- State of the parse of `["prog", "-i", "123"]` over `ctxInput` after
consuming `-i`. -/
def stInput : ParseState :=
  { ctx := { ctxInput with arg_token :=
      [{ long_name := some ("input").data, short_name := 'i', arg := [],
         arg_type := VEX_ARG_TYPE_STR }] },
    last_desc := some 2, last_token := some 0, parse_options := true }

def flagA : vex_arg_desc :=
  { description := none, long_name := ("alpha").data, short_name := 'a',
    arg_type := VEX_ARG_TYPE_FLAG, max_count := 0 }

def flagB : vex_arg_desc :=
  { description := none, long_name := ("beta").data, short_name := 'b',
    arg_type := VEX_ARG_TYPE_FLAG, max_count := 0 }

def ctxAB : vex_ctx := (vex_add_arg (vex_add_arg vex_init flagA).1 flagB).1

def dupH : vex_arg_desc :=
  { description := none, long_name := ("helpme").data, short_name := 'h',
    arg_type := VEX_ARG_TYPE_FLAG, max_count := 0 }

/-! Helper lemmas. -/

theorem setStatus_status (ctx : vex_ctx) (s : Int) (m : Option CStr) :
    (setStatus ctx s m).status = s := by
  unfold setStatus; split <;> rfl

theorem setStatus_arg_token (ctx : vex_ctx) (s : Int) (m : Option CStr) :
    (setStatus ctx s m).arg_token = ctx.arg_token := by
  unfold setStatus; split <;> rfl

theorem setStatus_arg_desc (ctx : vex_ctx) (s : Int) (m : Option CStr) :
    (setStatus ctx s m).arg_desc = ctx.arg_desc := by
  unfold setStatus; split <;> rfl

theorem strncmpEq_pre (pre : CStr) : ∀ (suf b : CStr),
    strncmpEq (pre ++ suf) b pre.length = pre.isPrefixOf b := by
  induction pre with
  | nil => intro suf b; cases b <;> simp [strncmpEq, List.isPrefixOf]
  | cons a xs ih =>
    intro suf b
    cases b with
    | nil => simp [strncmpEq, List.isPrefixOf]
    | cons q qs => simp [strncmpEq, List.isPrefixOf, ih]

theorem findLongIdx_eq_first (descs : List vex_arg_desc) (tl : CStr) :
    findLongIdx descs tl =
      findWithIdx (fun d => (tl.takeWhile fun c => c != '=').isPrefixOf d.long_name) 0 descs := by
  have hpred : (fun d : vex_arg_desc => strncmpEq tl d.long_name (longSpan tl)) =
      (fun d : vex_arg_desc => (tl.takeWhile fun c => c != '=').isPrefixOf d.long_name) := by
    funext d
    have h := strncmpEq_pre (tl.takeWhile fun c => c != '=')
      (tl.dropWhile fun c => c != '=') d.long_name
    rw [List.takeWhile_append_dropWhile] at h
    simpa [longSpan] using h
  unfold findLongIdx
  rw [hpred]

theorem findWithIdx_pred (p : vex_arg_desc → Bool) :
    ∀ (l : List vex_arg_desc) (i j : Nat) (d : vex_arg_desc),
      findWithIdx p i l = some (j, d) → p d = true := by
  intro l
  induction l with
  | nil => intro i j d h; simp [findWithIdx] at h
  | cons x xs ih =>
    intro i j d h
    unfold findWithIdx at h
    split at h
    · simp at h; rcases h with ⟨-, h2⟩; subst h2; assumption
    · exact ih _ _ _ h

theorem findWithIdx_mem (p : vex_arg_desc → Bool) :
    ∀ (l : List vex_arg_desc) (i j : Nat) (d : vex_arg_desc),
      findWithIdx p i l = some (j, d) → d ∈ l := by
  intro l
  induction l with
  | nil => intro i j d h; simp [findWithIdx] at h
  | cons x xs ih =>
    intro i j d h
    unfold findWithIdx at h
    split at h
    · simp at h; rcases h with ⟨-, h2⟩; subst h2; simp
    · exact List.mem_cons_of_mem _ (ih _ _ _ h)

theorem takeWhile_append_stop (p : Char → Bool) :
    ∀ (l1 : CStr) (c : Char) (l2 : CStr), (∀ x ∈ l1, p x = true) → p c = false →
      List.takeWhile p (l1 ++ c :: l2) = l1 := by
  intro l1
  induction l1 with
  | nil => intro c l2 _ hc; simp [List.takeWhile_cons, hc]
  | cons a xs ih =>
    intro c l2 hall hc
    have ha : p a = true := hall a (by simp)
    simp [List.takeWhile_cons, ha]
    exact ih c l2 (fun x hx => hall x (by simp [hx])) hc

theorem strchrAfter_append (ch : Char) :
    ∀ (l1 l2 : CStr), ch ∉ l1 → strchrAfter (l1 ++ ch :: l2) ch = some l2 := by
  intro l1
  induction l1 with
  | nil => intro l2 _; simp [strchrAfter]
  | cons a xs ih =>
    intro l2 h
    have ha : ¬ (a = ch) := by intro e; exact h (by simp [e])
    simp [strchrAfter, ha]
    exact ih l2 (fun e => h (by simp [e]))

theorem atoiDigits_foldl : ∀ (s : CStr) (acc : Int), s.all cIsDigit = true →
    atoiDigits s acc = List.foldl (fun a c => a * 10 + ((c.toNat : Int) - 48)) acc s := by
  intro s
  induction s with
  | nil => intro acc _; rfl
  | cons c rest ih =>
    intro acc h
    rw [List.all_cons, Bool.and_eq_true] at h
    obtain ⟨hc, hrest⟩ := h
    simp [atoiDigits, hc, List.foldl]
    exact ih _ hrest

theorem atoi_digits (s : CStr) (h1 : s ≠ []) (h2 : s.all cIsDigit = true) :
    atoi s = decValue s := by
  cases s with
  | nil => exact absurd rfl h1
  | cons c rest =>
    have hall := h2
    rw [List.all_cons, Bool.and_eq_true] at h2
    obtain ⟨hc, hrest⟩ := h2
    have hcn : 48 ≤ c.toNat ∧ c.toNat ≤ 57 := by
      have hd := hc; unfold cIsDigit at hd; simpa using hd
    have hspace : cIsSpace c = false := by
      unfold cIsSpace; simp; omega
    have hminus : ¬ (c = '-') := by
      intro e; subst e; exact absurd hcn (by decide)
    have hplus : ¬ (c = '+') := by
      intro e; subst e; exact absurd hcn (by decide)
    unfold atoi
    rw [List.dropWhile_cons, hspace]
    simp only [Bool.false_eq_true, if_false, hminus, hplus, ite_false]
    rw [atoiDigits_foldl _ 0 hall]
    rfl

theorem parseLoop_append : ∀ (xs ys : List CStr) (st : ParseState),
    parseLoop st (xs ++ ys) =
      match parseLoop st xs with
      | Except.ok st2 => parseLoop st2 ys
      | Except.error c => Except.error c := by
  intro xs
  induction xs with
  | nil => intro ys st; rfl
  | cons a rest ih =>
    intro ys st
    cases h : parseStep st a with
    | ok st2 => simp [parseLoop, h]; exact ih ys st2
    | error c => simp [parseLoop, h]

theorem shortLoop_ok_frame : ∀ (cl : CStr) (st st' : ParseState),
    shortLoop st cl = Except.ok st' →
    st'.ctx.arg_desc = st.ctx.arg_desc ∧ st'.ctx.status = st.ctx.status ∧
    st'.ctx.status_msg = st.ctx.status_msg ∧ st'.ctx.help_msg = st.ctx.help_msg := by
  intro cl
  induction cl with
  | nil => intro st st' h; cases h; exact ⟨rfl, rfl, rfl, rfl⟩
  | cons c rest ih =>
    intro st st' h
    unfold shortLoop at h
    split at h
    · obtain ⟨a1, a2, a3, a4⟩ := ih _ _ h
      exact ⟨a1, a2, a3, a4⟩
    · split at h
      · split at h
        · split at h
          · cases h; exact ⟨rfl, rfl, rfl, rfl⟩
          · exact Except.noConfusion h
        · exact Except.noConfusion h
      · exact Except.noConfusion h

theorem longOption_ok_frame (st : ParseState) (arg tl : CStr) (st' : ParseState)
    (h : longOption st arg tl = Except.ok st') :
    st'.ctx.arg_desc = st.ctx.arg_desc ∧ st'.ctx.status = st.ctx.status ∧
    st'.ctx.status_msg = st.ctx.status_msg ∧ st'.ctx.help_msg = st.ctx.help_msg := by
  unfold longOption at h
  split at h
  · exact Except.noConfusion h
  · cases h; exact ⟨rfl, rfl, rfl, rfl⟩

theorem freeStanding_ok_frame (st : ParseState) (arg : CStr) (ty : Int) (st' : ParseState)
    (h : freeStanding st arg ty = Except.ok st') :
    st'.ctx.arg_desc = st.ctx.arg_desc ∧ st'.ctx.status = st.ctx.status ∧
    st'.ctx.status_msg = st.ctx.status_msg ∧ st'.ctx.help_msg = st.ctx.help_msg := by
  unfold freeStanding at h
  cases h; exact ⟨rfl, rfl, rfl, rfl⟩

theorem freeValue_ok_frame (st : ParseState) (arg : CStr) (st' : ParseState)
    (h : freeValue st arg = Except.ok st') :
    st'.ctx.arg_desc = st.ctx.arg_desc ∧ st'.ctx.status = st.ctx.status ∧
    st'.ctx.status_msg = st.ctx.status_msg ∧ st'.ctx.help_msg = st.ctx.help_msg := by
  unfold freeValue at h
  split at h
  · split at h
    · split at h
      · split at h
        · exact Except.noConfusion h
        · cases h; exact ⟨rfl, rfl, rfl, rfl⟩
      · exact freeStanding_ok_frame _ _ _ _ h
    · exact freeStanding_ok_frame _ _ _ _ h
  · exact freeStanding_ok_frame _ _ _ _ h

theorem parseStep_ok_frame (st : ParseState) (a : CStr) (st' : ParseState)
    (h : parseStep st a = Except.ok st') :
    st'.ctx.arg_desc = st.ctx.arg_desc ∧ st'.ctx.status = st.ctx.status ∧
    st'.ctx.status_msg = st.ctx.status_msg ∧ st'.ctx.help_msg = st.ctx.help_msg := by
  unfold parseStep at h
  split at h
  · cases h; exact ⟨rfl, rfl, rfl, rfl⟩
  · split at h
    · split at h
      · obtain ⟨a1, a2, a3, a4⟩ := longOption_ok_frame _ _ _ _ h
        exact ⟨a1, a2, a3, a4⟩
      · obtain ⟨a1, a2, a3, a4⟩ := shortLoop_ok_frame _ _ _ h
        exact ⟨a1, a2, a3, a4⟩
    · exact freeValue_ok_frame _ _ _ h

theorem parseLoop_ok_frame : ∀ (args : List CStr) (st st' : ParseState),
    parseLoop st args = Except.ok st' →
    st'.ctx.arg_desc = st.ctx.arg_desc ∧ st'.ctx.status = st.ctx.status := by
  intro args
  induction args with
  | nil => intro st st' h; cases h; exact ⟨rfl, rfl⟩
  | cons a rest ih =>
    intro st st' h
    unfold parseLoop at h
    split at h
    · next st2 hstep =>
      obtain ⟨h1, h2⟩ := ih _ _ h
      obtain ⟨g1, g2, -, -⟩ := parseStep_ok_frame _ _ _ hstep
      exact ⟨h1.trans g1, h2.trans g2⟩
    · exact Except.noConfusion h

theorem all_set_keep {α : Type} (p : α → Bool) (l : List α) (i : Nat) (x : α)
    (hl : l.all p = true) (hx : p x = true) : (l.set i x).all p = true := by
  rw [List.all_eq_true] at hl ⊢
  intro y hy
  rcases List.mem_or_eq_of_mem_set hy with h | h
  · exact hl y h
  · subst h; exact hx

theorem longTok_arg_type (dsc : vex_arg_desc) (arg : CStr) :
    (longTok dsc arg).arg_type = dsc.arg_type := by
  unfold longTok
  split
  · split <;> rfl
  · rfl

theorem inferTypeGo_resolved : ∀ (l : CStr) (ty : Int), kindResolved ty = true →
    kindResolved (inferTypeGo l ty) = true := by
  intro l
  induction l with
  | nil => intro ty h; exact h
  | cons c rest ih =>
    intro ty h
    unfold inferTypeGo
    split
    · split
      · exact ih _ (by decide)
      · decide
    · split
      · exact ih _ (by decide)
      · exact ih _ h

theorem inferType_resolved (a : CStr) (h : a ≠ []) : kindResolved (inferType a) = true := by
  cases a with
  | nil => exact absurd rfl h
  | cons c rest =>
    unfold inferType inferTypeGo
    split
    · split
      · exact inferTypeGo_resolved _ _ (by decide)
      · decide
    · split
      · exact inferTypeGo_resolved _ _ (by decide)
      · next h2 => exact absurd (by decide) h2

theorem freeStanding_resolved (st : ParseState) (arg : CStr) (ty : Int) (st' : ParseState)
    (h : freeStanding st arg ty = Except.ok st')
    (ht : st.ctx.arg_token.all (fun t => kindResolved t.arg_type) = true)
    (hty : kindResolved ty = true) :
    st'.ctx.arg_token.all (fun t => kindResolved t.arg_type) = true := by
  unfold freeStanding at h
  cases h
  simp only [List.all_append, Bool.and_eq_true]
  refine ⟨ht, ?_⟩
  simpa using hty

theorem shortLoop_resolved : ∀ (cl : CStr) (st st' : ParseState),
    shortLoop st cl = Except.ok st' →
    st.ctx.arg_desc.all (fun d => kindResolved d.arg_type) = true →
    st.ctx.arg_token.all (fun t => kindResolved t.arg_type) = true →
    st'.ctx.arg_token.all (fun t => kindResolved t.arg_type) = true := by
  intro cl
  induction cl with
  | nil => intro st st' h hd ht; cases h; exact ht
  | cons c rest ih =>
    intro st st' h hd ht
    unfold shortLoop at h
    split at h
    · next d dsc hfind =>
      refine ih _ _ h hd ?_
      have hm : dsc ∈ st.ctx.arg_desc := findWithIdx_mem _ _ _ _ _ hfind
      have hres : kindResolved dsc.arg_type = true := List.all_eq_true.mp hd dsc hm
      show ((st.ctx.arg_token ++ [descTok dsc]).all fun t => kindResolved t.arg_type) = true
      simp only [List.all_append, Bool.and_eq_true]
      exact ⟨ht, by simpa [descTok] using hres⟩
    · split at h
      · next ti heq1 =>
        split at h
        · next tok heq2 =>
          split at h
          · cases h
            have hmem : tok ∈ st.ctx.arg_token := List.get?_mem heq2
            have hptok : kindResolved tok.arg_type = true := List.all_eq_true.mp ht tok hmem
            show ((setTokValue st.ctx.arg_token ti tok _).all fun t => kindResolved t.arg_type) = true
            unfold setTokValue
            exact all_set_keep _ _ _ _ ht hptok
          · exact Except.noConfusion h
        · exact Except.noConfusion h
      · exact Except.noConfusion h

theorem freeValue_resolved (st : ParseState) (arg : CStr) (st' : ParseState)
    (h : freeValue st arg = Except.ok st')
    (ha : arg ≠ [])
    (ht : st.ctx.arg_token.all (fun t => kindResolved t.arg_type) = true) :
    st'.ctx.arg_token.all (fun t => kindResolved t.arg_type) = true := by
  unfold freeValue at h
  split at h
  · split at h
    · next ti heq1 =>
      split at h
      · next tok heq2 =>
        split at h
        · exact Except.noConfusion h
        · cases h
          have hmem : tok ∈ st.ctx.arg_token := List.get?_mem heq2
          have hptok : kindResolved tok.arg_type = true := List.all_eq_true.mp ht tok hmem
          show ((setTokValue st.ctx.arg_token ti tok _).all fun t => kindResolved t.arg_type) = true
          unfold setTokValue
          exact all_set_keep _ _ _ _ ht hptok
      · exact freeStanding_resolved _ _ _ _ h ht (inferType_resolved _ ha)
    · exact freeStanding_resolved _ _ _ _ h ht (inferType_resolved _ ha)
  · exact freeStanding_resolved _ _ _ _ h ht (inferType_resolved _ ha)

theorem parseStep_resolved (st : ParseState) (a : CStr) (st' : ParseState)
    (h : parseStep st a = Except.ok st')
    (hd : st.ctx.arg_desc.all (fun d => kindResolved d.arg_type) = true)
    (ht : st.ctx.arg_token.all (fun t => kindResolved t.arg_type) = true)
    (ha : a ≠ []) :
    st'.ctx.arg_token.all (fun t => kindResolved t.arg_type) = true := by
  unfold parseStep at h
  split at h
  · cases h; exact ht
  · split at h
    · split at h
      · unfold longOption at h
        split at h
        · exact Except.noConfusion h
        · next d dsc hfind =>
          cases h
          have hm : dsc ∈ st.ctx.arg_desc := findWithIdx_mem _ _ _ _ _ hfind
          have hres : kindResolved dsc.arg_type = true := List.all_eq_true.mp hd dsc hm
          show ((st.ctx.arg_token ++ [longTok dsc a]).all fun t => kindResolved t.arg_type) = true
          simp only [List.all_append, Bool.and_eq_true]
          refine ⟨ht, ?_⟩
          simpa [longTok_arg_type] using hres
      · exact shortLoop_resolved _ _ _ h hd ht
    · exact freeValue_resolved _ _ _ h ha ht

theorem parseLoop_resolved : ∀ (args : List CStr) (st st' : ParseState),
    parseLoop st args = Except.ok st' →
    st.ctx.arg_desc.all (fun d => kindResolved d.arg_type) = true →
    st.ctx.arg_token.all (fun t => kindResolved t.arg_type) = true →
    args.all (fun a => decide (a ≠ [])) = true →
    st'.ctx.arg_token.all (fun t => kindResolved t.arg_type) = true := by
  intro args
  induction args with
  | nil => intro st st' h _ ht _; cases h; exact ht
  | cons a rest ih =>
    intro st st' h hd ht hargs
    rw [List.all_cons, Bool.and_eq_true] at hargs
    obtain ⟨ha, hrest⟩ := hargs
    have ha' : a ≠ [] := of_decide_eq_true ha
    unfold parseLoop at h
    split at h
    · next st2 hstep =>
      have hd2 : st2.ctx.arg_desc.all (fun d => kindResolved d.arg_type) = true := by
        obtain ⟨g1, -, -, -⟩ := parseStep_ok_frame _ _ _ hstep
        rw [g1]; exact hd
      exact ih _ _ h hd2 (parseStep_resolved _ _ _ hstep hd ht ha') hrest
    · exact Except.noConfusion h

theorem parseLoop_off : ∀ (args : List CStr) (st : ParseState), st.parse_options = false →
    ∃ st' : ParseState, parseLoop st args = Except.ok st' ∧ st'.parse_options = false ∧
      st'.ctx = { st.ctx with arg_token := st.ctx.arg_token ++ ((args.filter fun a => !(a == ("--").data)).map freeTok) } := by
  intro args
  induction args with
  | nil =>
    intro st hst
    refine ⟨st, rfl, hst, ?_⟩
    simp
  | cons a rest ih =>
    intro st hst
    by_cases hdd : a = ("--").data
    · subst hdd
      obtain ⟨st', h1, h2, h3⟩ := ih { st with parse_options := false } rfl
      refine ⟨st', ?_, h2, ?_⟩
      · simp only [parseLoop, parseStep, if_pos rfl]
        exact h1
      · rw [h3]
        simp
    · have hc1 : ¬ (st.parse_options = true ∧ a.head? = some '-') := by
        intro hcon
        rw [hst] at hcon
        exact Bool.noConfusion hcon.1
      have hc2 : ¬ (st.parse_options = true ∧ lastCapacity st = true) := by
        intro hcon
        rw [hst] at hcon
        exact Bool.noConfusion hcon.1
      have hstep : parseStep st a = freeStanding st a (inferType a) := by
        unfold parseStep freeValue
        rw [if_neg hdd, if_neg hc1, if_neg hc2]
      obtain ⟨st', h1, h2, h3⟩ := ih { st with ctx := { st.ctx with arg_token := st.ctx.arg_token ++ [freeTok a] }, last_token := none, last_desc := none } hst
      refine ⟨st', ?_, h2, ?_⟩
      · simp only [parseLoop]
        rw [hstep]
        unfold freeStanding
        exact h1
      · rw [h3]
        have hpa : (!(a == ("--").data)) = true := by
          simp [hdd]
        simp [List.filter_cons_of_pos, hpa, hdd]

theorem longOption_found (st : ParseState) (arg tl : CStr) (i : Nat) (d : vex_arg_desc)
    (h : findLongIdx st.ctx.arg_desc tl = some (i, d)) :
    longOption st arg tl = Except.ok (pushTok st i (longTok d arg)) := by
  unfold longOption
  simp only [h]

theorem shortLoop_found_step (st : ParseState) (c : Char) (rest : CStr) (i : Nat)
    (dsc : vex_arg_desc)
    (h : findWithIdx (fun d => d.short_name == c) 0 st.ctx.arg_desc = some (i, dsc)) :
    shortLoop st (c :: rest) = shortLoop (pushTok st i (descTok dsc)) rest := by
  conv_lhs => rw [shortLoop]
  simp only [h]

theorem shortLoop_unknown_stop (st : ParseState) (c : Char) (rest : CStr) (ti : Nat)
    (tok : vex_arg_token)
    (hfind : findWithIdx (fun d => d.short_name == c) 0 st.ctx.arg_desc = none)
    (hlt : st.last_token = some ti)
    (htok : st.ctx.arg_token.get? ti = some tok)
    (hcond : ¬ (tok.short_name ≠ charNul ∧ tok.arg_type ≠ VEX_ARG_TYPE_FLAG)) :
    shortLoop st (c :: rest) = Except.error (setStatus st.ctx VEX_STATUS_UNKNOWN_ARG
      (some (("Unknown option: -").data ++ [c]))) := by
  conv_lhs => rw [shortLoop]
  simp only [hfind, hlt, htok]
  rw [if_neg hcond]

/-- C7: for every registry state, registering a descriptor whose short name
equals an already-registered descriptor's short name, or whose long name
textually equals an already-registered descriptor's long name, fails with
InvalidValue (VEX_STATUS_BAD_VALUE) and returns false, regardless of the
order in which the two options were presented. -/
theorem C7_duplicate_registration (ctx : vex_ctx) (desc : vex_arg_desc)
    (hdup : ∃ d ∈ ctx.arg_desc, d.short_name = desc.short_name ∨ d.long_name = desc.long_name) :
    (vex_add_arg ctx desc).2 = false ∧ (vex_add_arg ctx desc).1.status = VEX_STATUS_BAD_VALUE := by
  unfold vex_add_arg
  split
  · exact ⟨rfl, setStatus_status _ _ _⟩
  · have hfind : (ctx.arg_desc.find? (fun d =>
        d.short_name == desc.short_name || d.long_name == desc.long_name)).isSome := by
      rw [List.find?_isSome]
      obtain ⟨d, hd, hor⟩ := hdup
      refine ⟨d, hd, ?_⟩
      rcases hor with h | h
      · simp [h]
      · simp [h]
    split
    · exact ⟨rfl, setStatus_status _ _ _⟩
    · next hnone => rw [hnone] at hfind; exact Bool.noConfusion hfind

/-- Witness for C7: re-registering the short name h (taken by the default
help flag) on the default context fails with InvalidValue. -/
theorem C7_witness :
    (vex_add_arg vex_init dupH).2 = false ∧
    (vex_add_arg vex_init dupH).1.status = VEX_STATUS_BAD_VALUE :=
  C7_duplicate_registration vex_init dupH (by decide)

/-- C9: whenever vex_add_arg returns false, the option registry is unchanged:
the stored descriptor list (hence num_arg_desc and every stored descriptor)
is exactly as before the call.  Allocation always succeeds in the model; the
source's allocation-failure return also leaves the descriptor count and
contents untouched, but is outside the model. -/
theorem C9_failed_registration_preserves_registry (ctx : vex_ctx) (desc : vex_arg_desc)
    (h : (vex_add_arg ctx desc).2 = false) :
    (vex_add_arg ctx desc).1.arg_desc = ctx.arg_desc := by
  unfold vex_add_arg at h ⊢
  split at h
  · next hcond =>
    rw [if_pos hcond]
    exact setStatus_arg_desc _ _ _
  · next hcond =>
    rw [if_neg hcond]
    split at h
    · exact setStatus_arg_desc _ _ _
    · simp at h

/-- Witness for C9: the failed duplicate registration leaves the default
registry unchanged. -/
theorem C9_witness : (vex_add_arg vex_init dupH).1.arg_desc = vex_init.arg_desc :=
  C9_failed_registration_preserves_registry vex_init dupH (by decide)

/-- C10: vex_arg_found called with a NULL name pointer or with the empty
string returns false in every context state, regardless of the tokens
present. -/
theorem C10_arg_found_null_or_empty (ctx : vex_ctx) :
    vex_arg_found ctx none = false ∧ vex_arg_found ctx (some []) = false := by
  constructor
  · rfl
  · unfold vex_arg_found
    simp

/-- C1 (amended): long-option matching is length-bounded by the SUPPLIED
name, not the registered one: resolution returns the first registered
descriptor whose long name has the supplied text before any = as a prefix.
Consequently a supplied name that is a proper prefix of a registered name
matches it (--hel resolves to the registered help flag), while a supplied
name that properly extends a registered name matches nothing: --helper fails
with UnknownArgument instead of resolving to help. -/
theorem C1_long_match_supplied_prefix :
    (∀ (descs : List vex_arg_desc) (tl : CStr),
      findLongIdx descs tl =
        findWithIdx (fun d => (tl.takeWhile fun c => c != '=').isPrefixOf d.long_name) 0 descs) ∧
    (vex_parse vex_init [("p").data, ("--hel").data]).2 = true ∧
    (vex_parse vex_init [("p").data, ("--hel").data]).1.arg_token =
      [{ long_name := some ("help").data, short_name := 'h', arg := [],
         arg_type := VEX_ARG_TYPE_FLAG }] ∧
    (vex_parse vex_init [("p").data, ("--helper").data]).2 = false :=
  ⟨findLongIdx_eq_first, rfl, rfl, rfl⟩

/-- C1 counterexample: the default registry registers the long name help, yet
parsing the supplied argument --helper does not resolve to it and produce a
token; the parse fails with UnknownArgument and stores no token. -/
theorem C1_counterexample :
    (vex_parse vex_init [("p").data, ("--helper").data]).2 = false ∧
    (vex_parse vex_init [("p").data, ("--helper").data]).1.status = VEX_STATUS_UNKNOWN_ARG ∧
    (vex_parse vex_init [("p").data, ("--helper").data]).1.arg_token = [] :=
  ⟨rfl, rfl, rfl⟩

/-- C8 (amended): mutating operations do not reset the status to Ok at their
start; a successful registration or parse leaves the context's previous
status value unchanged (so a stale error status persists), and the status is
written only when an operation reports an error. -/
theorem C8_status_not_reset :
    (∀ (ctx : vex_ctx) (desc : vex_arg_desc),
      (vex_add_arg ctx desc).2 = true → (vex_add_arg ctx desc).1.status = ctx.status) ∧
    (∀ (ctx : vex_ctx) (argv : List CStr),
      (vex_parse ctx argv).2 = true → (vex_parse ctx argv).1.status = ctx.status) := by
  constructor
  · intro ctx desc h
    unfold vex_add_arg at h ⊢
    split at h
    · simp at h
    · next hcond =>
      rw [if_neg hcond]
      split at h
      · simp at h
      · rfl
  · intro ctx argv h
    unfold vex_parse at h ⊢
    split at h
    · next st hok =>
      obtain ⟨-, h2⟩ := parseLoop_ok_frame _ _ _ hok
      exact h2
    · simp at h

/-- Witness for C8 (amended): a successful registration after a failed one
keeps the stale status, and a successful parse keeps the prior status. -/
theorem C8_witness :
    (vex_add_arg (vex_add_arg vex_init dupH).1 flagA).1.status = (vex_add_arg vex_init dupH).1.status ∧
    (vex_parse vex_init [("p").data, ("-h").data]).1.status = vex_init.status :=
  ⟨C8_status_not_reset.1 _ _ rfl, C8_status_not_reset.2 _ _ rfl⟩

/-- C8 counterexample: a failed registration (duplicate short name h) sets
status InvalidValue; the next registration succeeds (returns true) yet the
status remains InvalidValue, not Ok, so the operation did not reset the
status at its start. -/
theorem C8_counterexample :
    (vex_add_arg vex_init dupH).2 = false ∧
    (vex_add_arg vex_init dupH).1.status = VEX_STATUS_BAD_VALUE ∧
    (vex_add_arg (vex_add_arg vex_init dupH).1 flagA).2 = true ∧
    (vex_add_arg (vex_add_arg vex_init dupH).1 flagA).1.status = VEX_STATUS_BAD_VALUE ∧
    VEX_STATUS_BAD_VALUE ≠ VEX_STATUS_OK :=
  ⟨rfl, rfl, rfl, rfl, by decide⟩

/-- C3 (amended): once a literal -- is consumed, option-syntax parsing is
off for the entire remainder and never re-enabled: the rest of the parse
always succeeds (no argument is matched as an option or raises
UnknownArgument), and every remaining argument except further literal --
arguments (which are consumed without producing any token) yields a
free-standing descriptor-less token classified by content. -/
theorem C3_double_dash_disables (ctx : vex_ctx) (prog : CStr) (args1 args2 : List CStr)
    (st : ParseState) (h : parseLoop (initState ctx) args1 = Except.ok st) :
    vex_parse ctx (prog :: args1 ++ ("--").data :: args2) =
      ({ st.ctx with arg_token := st.ctx.arg_token ++ ((args2.filter fun a => !(a == ("--").data)).map freeTok) }, true) := by
  have hdd : parseStep st (("--").data) = Except.ok { st with parse_options := false } := by
    unfold parseStep
    rw [if_pos rfl]
  obtain ⟨st', h1, h2, h3⟩ := parseLoop_off args2 { st with parse_options := false } rfl
  have hloop : parseLoop st ((("--").data) :: args2) = Except.ok st' := by
    simp only [parseLoop, hdd]
    exact h1
  have hfull : parseLoop (initState ctx) (args1 ++ (("--").data) :: args2) = Except.ok st' := by
    rw [parseLoop_append, h]
    exact hloop
  have hres : vex_parse ctx (prog :: args1 ++ (("--").data) :: args2) = (st'.ctx, true) := by
    unfold vex_parse
    rw [show (prog :: args1 ++ (("--").data) :: args2).tail = args1 ++ (("--").data) :: args2 from rfl]
    rw [hfull]
  rw [hres, h3]

/-- Witness for C3 (amended): with the default context and no arguments
before --, the argument -x after -- is not treated as an option but becomes
a free-standing String token. -/
theorem C3_witness :
    vex_parse vex_init [("p").data, ("--").data, ("-x").data] =
      ({ (initState vex_init).ctx with arg_token := (initState vex_init).ctx.arg_token ++ (([("-x").data].filter fun a => !(a == ("--").data)).map freeTok) }, true) :=
  C3_double_dash_disables vex_init (("p").data) [] [("-x").data] (initState vex_init) rfl

/-- C3 counterexample: parsing ["prog", "--", "--"] succeeds with ZERO
tokens — the second literal -- is consumed by the disable check (which runs
before any tokenization, also once option parsing is already off) and does
NOT produce a free-standing value token as the claim requires. -/
theorem C3_counterexample :
    (vex_parse vex_init [("p").data, ("--").data, ("--").data]).2 = true ∧
    (vex_parse vex_init [("p").data, ("--").data, ("--").data]).1.arg_token = [] :=
  ⟨rfl, rfl⟩

/-- C4 (amended): provided every registered descriptor declares a resolved
kind and no argument after the program name is the empty string, every token
stored by a successful parse has a resolved value kind (Flag, Integer, Float
or String) — Unknown does not occur. -/
theorem C4_resolved_kinds (ctx : vex_ctx) (argv : List CStr)
    (hd : ctx.arg_desc.all (fun d => kindResolved d.arg_type) = true)
    (hargs : argv.tail.all (fun a => decide (a ≠ [])) = true)
    (hok : (vex_parse ctx argv).2 = true) :
    (vex_parse ctx argv).1.arg_token.all (fun t => kindResolved t.arg_type) = true := by
  unfold vex_parse at hok ⊢
  split at hok
  · next st hloop =>
    exact parseLoop_resolved _ _ _ hloop hd rfl hargs
  · simp at hok

/-- Witness for C4 (amended) at a concrete input: parsing -h then a String
value over the default context yields only tokens of resolved kinds. -/
theorem C4_witness :
    (vex_parse vex_init [("p").data, ("-h").data, ("abc").data]).1.arg_token.all (fun t => kindResolved t.arg_type) = true :=
  C4_resolved_kinds vex_init [("p").data, ("-h").data, ("abc").data] (by decide) (by decide) (by decide)

/-- C4 counterexample: parsing an empty free-standing argument succeeds and
stores a token whose value kind is Unknown (holding the zero-initialized
union as its value), not String. -/
theorem C4_counterexample :
    (vex_parse vex_init [("p").data, ("").data]).2 = true ∧
    (vex_parse vex_init [("p").data, ("").data]).1.arg_token =
      [{ long_name := none, short_name := charNul, arg := [vex_value.v0],
         arg_type := VEX_ARG_TYPE_UNKNOWN }] ∧
    VEX_ARG_TYPE_UNKNOWN ≠ VEX_ARG_TYPE_STR :=
  ⟨rfl, rfl, by decide⟩

/-- C5: when option parsing is active and the previous token's descriptor
still has capacity (negative max_count or count below it), a free-standing
value whose inferred type differs from that token's declared type makes the
parse fail immediately with InvalidValue (VEX_STATUS_BAD_VALUE); it does not
fall back to creating a new free-standing token (the token list is exactly
what it was when the offending argument was reached). -/
theorem C5_type_mismatch_hard_failure (ctx : vex_ctx) (prog : CStr) (args1 : List CStr)
    (v : CStr) (rest : List CStr) (st : ParseState) (ti di : Nat)
    (tok : vex_arg_token) (dsc : vex_arg_desc)
    (h : parseLoop (initState ctx) args1 = Except.ok st)
    (hpo : st.parse_options = true)
    (hlt : st.last_token = some ti)
    (hld : st.last_desc = some di)
    (htok : st.ctx.arg_token.get? ti = some tok)
    (hdsc : st.ctx.arg_desc.get? di = some dsc)
    (hcap : dsc.max_count < 0 ∨ (tok.arg.length : Int) < dsc.max_count)
    (hty : inferType v ≠ tok.arg_type)
    (hhd : v.head? ≠ some '-') :
    vex_parse ctx (prog :: args1 ++ v :: rest) =
      (setStatus st.ctx VEX_STATUS_BAD_VALUE (some ("Unexpected value").data), false) ∧
    (setStatus st.ctx VEX_STATUS_BAD_VALUE (some ("Unexpected value").data)).arg_token = st.ctx.arg_token := by
  refine ⟨?_, setStatus_arg_token _ _ _⟩
  have hvdd : v ≠ ("--").data := by
    intro e; subst e; exact hhd rfl
  have hcap' : lastCapacity st = true := by
    unfold lastCapacity
    simp only [hlt, hld, htok, hdsc]
    rcases hcap with hc | hc
    · simp [hc]
    · simp [hc]
  have hnc1 : ¬ (st.parse_options = true ∧ v.head? = some '-') := by
    intro hcon; exact hhd hcon.2
  have hstep : parseStep st v = Except.error (setStatus st.ctx VEX_STATUS_BAD_VALUE (some ("Unexpected value").data)) := by
    unfold parseStep
    rw [if_neg hvdd, if_neg hnc1]
    unfold freeValue
    rw [if_pos ⟨hpo, hcap'⟩]
    simp only [hlt, htok]
    rw [if_pos (Ne.symm hty)]
  unfold vex_parse
  rw [show (prog :: args1 ++ v :: rest).tail = args1 ++ v :: rest from rfl]
  rw [parseLoop_append, h]
  simp only [parseLoop, hstep]

/-- Witness for C5 at a concrete input: -i is a String option with unbounded
capacity; the following all-digit value 123 infers Integer, and the parse
fails with InvalidValue leaving only the -i token. -/
theorem C5_witness :
    vex_parse ctxInput [("p").data, ("-i").data, ("123").data] =
      (setStatus stInput.ctx VEX_STATUS_BAD_VALUE (some ("Unexpected value").data), false) ∧
    (setStatus stInput.ctx VEX_STATUS_BAD_VALUE (some ("Unexpected value").data)).arg_token = stInput.ctx.arg_token :=
  C5_type_mismatch_hard_failure ctxInput (("p").data) [("-i").data] (("123").data) []
    stInput 0 2
    { long_name := some ("input").data, short_name := 'i', arg := [], arg_type := VEX_ARG_TYPE_STR }
    inputDesc rfl rfl rfl rfl rfl rfl (by decide) (by decide) (by decide)

/-- C6: parsing the single cluster -abc where a and b resolve (first match)
to Flag descriptors and c matches no registered short name fails with
UnknownArgument: the unknown character cannot attach as a trailing value
because the last token's option is a Flag. -/
theorem C6_unknown_after_flags (ctx : vex_ctx) (prog : CStr)
    (ia ib : Nat) (da db : vex_arg_desc)
    (ha : findWithIdx (fun d => d.short_name == 'a') 0 ctx.arg_desc = some (ia, da))
    (_hda : da.arg_type = VEX_ARG_TYPE_FLAG)
    (hb : findWithIdx (fun d => d.short_name == 'b') 0 ctx.arg_desc = some (ib, db))
    (hdb : db.arg_type = VEX_ARG_TYPE_FLAG)
    (hc : findWithIdx (fun d => d.short_name == 'c') 0 ctx.arg_desc = none) :
    (vex_parse ctx [prog, ("-abc").data]).2 = false ∧
    (vex_parse ctx [prog, ("-abc").data]).1.status = VEX_STATUS_UNKNOWN_ARG := by
  have h1 : shortLoop { initState ctx with last_desc := none, last_token := none } (('a') :: ('b') :: ('c') :: []) =
      shortLoop (pushTok { initState ctx with last_desc := none, last_token := none } ia (descTok da)) (('b') :: ('c') :: []) :=
    shortLoop_found_step _ _ _ _ _ ha
  have h2 : shortLoop (pushTok { initState ctx with last_desc := none, last_token := none } ia (descTok da)) (('b') :: ('c') :: []) =
      shortLoop (pushTok (pushTok { initState ctx with last_desc := none, last_token := none } ia (descTok da)) ib (descTok db)) (('c') :: []) :=
    shortLoop_found_step _ _ _ _ _ hb
  have h3 : shortLoop (pushTok (pushTok { initState ctx with last_desc := none, last_token := none } ia (descTok da)) ib (descTok db)) (('c') :: []) =
      Except.error (setStatus (pushTok (pushTok { initState ctx with last_desc := none, last_token := none } ia (descTok da)) ib (descTok db)).ctx VEX_STATUS_UNKNOWN_ARG
        (some (("Unknown option: -").data ++ ['c']))) := by
    refine shortLoop_unknown_stop _ _ _ 1 (descTok db) hc rfl rfl ?_
    intro hcon
    exact absurd (show (descTok db).arg_type = VEX_ARG_TYPE_FLAG from hdb) hcon.2
  have hstep : parseStep (initState ctx) (("-abc").data) =
      shortLoop { initState ctx with last_desc := none, last_token := none } (('a') :: ('b') :: ('c') :: []) := by
    unfold parseStep
    rw [if_neg (by decide : ¬ ((("-abc").data : CStr) = ("--").data))]
    rw [if_pos (⟨rfl, rfl⟩ : (initState ctx).parse_options = true ∧ ((("-abc").data : CStr)).head? = some '-')]
    rw [if_neg (by decide : ¬ (((("-abc").data : CStr)).get? 1 = some ('-')))]
    rfl
  have hloop : parseLoop (initState ctx) [("-abc").data] =
      Except.error (setStatus (pushTok (pushTok { initState ctx with last_desc := none, last_token := none } ia (descTok da)) ib (descTok db)).ctx VEX_STATUS_UNKNOWN_ARG
        (some (("Unknown option: -").data ++ ['c']))) := by
    simp only [parseLoop, hstep, h1, h2, h3]
  constructor
  · unfold vex_parse
    rw [show ([prog, ("-abc").data] : List CStr).tail = [("-abc").data] from rfl, hloop]
  · unfold vex_parse
    rw [show ([prog, ("-abc").data] : List CStr).tail = [("-abc").data] from rfl, hloop]
    exact setStatus_status _ _ _

/-- Witness for C6 at a concrete registry: flags a and b registered after
the defaults, c unregistered; parsing -abc fails with UnknownArgument. -/
theorem C6_witness :
    (vex_parse ctxAB [("p").data, ("-abc").data]).2 = false ∧
    (vex_parse ctxAB [("p").data, ("-abc").data]).1.status = VEX_STATUS_UNKNOWN_ARG :=
  C6_unknown_after_flags ctxAB (("p").data) 2 3 flagA flagB rfl rfl rfl rfl rfl

/-- C2 (amended): the round trip holds when the Integer descriptor is the
FIRST registered descriptor whose long name has the supplied name as a
prefix (registration order gives first-match-wins): for a registry where the
first such match for name is a descriptor d with long name exactly name and
Integer kind, parsing ["--name=digits"] succeeds and yields exactly one
token carrying d's names, Integer kind, and the denoted integer as its only
value, and get_token(0) returns that token. -/
theorem C2_long_value_round_trip (ctx : vex_ctx) (prog name value : CStr) (i : Nat) (d : vex_arg_desc)
    (hname : ¬ ('=' ∈ name))
    (hfind : findWithIdx (fun e => name.isPrefixOf e.long_name) 0 ctx.arg_desc = some (i, d))
    (hlong : d.long_name = name)
    (hint : d.arg_type = VEX_ARG_TYPE_INT)
    (hne : value ≠ [])
    (hdig : value.all cIsDigit = true) :
    vex_parse ctx [prog, ('-') :: ('-') :: (name ++ ('=') :: value)] =
      ({ ctx with arg_token := [{ long_name := some name, short_name := d.short_name, arg := [vex_value.int_arg (decValue value)], arg_type := VEX_ARG_TYPE_INT }] }, true) ∧
    vex_get_token { ctx with arg_token := [{ long_name := some name, short_name := d.short_name, arg := [vex_value.int_arg (decValue value)], arg_type := VEX_ARG_TYPE_INT }] } 0 =
      some { long_name := some name, short_name := d.short_name, arg := [vex_value.int_arg (decValue value)], arg_type := VEX_ARG_TYPE_INT } := by
  have htw : ((name ++ ('=') :: value).takeWhile fun c => c != '=') = name := by
    refine takeWhile_append_stop _ name ('=') value ?_ (by simp)
    intro x hx
    simp only [bne_iff_ne, ne_eq]
    intro e
    subst e
    exact hname hx
  have hfindL : findLongIdx ctx.arg_desc (name ++ ('=') :: value) = some (i, d) := by
    rw [findLongIdx_eq_first]
    simp only [htw]
    exact hfind
  have hchr : strchrAfter (('-') :: ('-') :: (name ++ ('=') :: value)) ('=') = some value := by
    have hap := strchrAfter_append ('=') name value hname
    simp [strchrAfter, hap]
  have htokeq : longTok d (('-') :: ('-') :: (name ++ ('=') :: value)) =
      { long_name := some name, short_name := d.short_name, arg := [vex_value.int_arg (decValue value)], arg_type := VEX_ARG_TYPE_INT } := by
    unfold longTok
    rw [if_pos (by rw [hint]; decide)]
    rw [hchr]
    simp only [descTok, convValue, hint, hlong, ite_true, eq_self_iff_true]
    rw [atoi_digits value hne hdig]
  have hne1 : (('-') :: ('-') :: (name ++ ('=') :: value)) ≠ (("--").data) := by
    intro e
    have e2 : name ++ ('=') :: value = [] := by
      injection e with e1 t1
      injection t1 with e3 t2
    exact absurd e2 (by simp)
  have hstep : parseStep (initState ctx) (('-') :: ('-') :: (name ++ ('=') :: value)) =
      Except.ok (pushTok { initState ctx with last_desc := none, last_token := none } i
        (longTok d (('-') :: ('-') :: (name ++ ('=') :: value)))) := by
    have hg2 : ((('-') :: ('-') :: (name ++ ('=') :: value)) : CStr).get? 1 = some ('-') := rfl
    unfold parseStep
    rw [if_neg hne1]
    rw [if_pos (⟨rfl, rfl⟩ : (initState ctx).parse_options = true ∧ ((('-') :: ('-') :: (name ++ ('=') :: value)) : CStr).head? = some '-')]
    rw [if_pos hg2]
    exact longOption_found _ _ _ _ _ hfindL
  constructor
  · unfold vex_parse
    rw [show ([prog, ('-') :: ('-') :: (name ++ ('=') :: value)] : List CStr).tail = [('-') :: ('-') :: (name ++ ('=') :: value)] from rfl]
    simp only [parseLoop, hstep, htokeq]
    rfl
  · unfold vex_get_token vex_token_count
    rw [if_neg (by simp)]
    rfl

/-- Witness for C2 (amended) at a concrete input: --count=42 over the
default registry extended with the Integer option count yields one Integer
token with value 42. -/
theorem C2_witness :
    vex_parse ctxCount [("p").data, ('-') :: ('-') :: ((("count").data) ++ ('=') :: (("42").data))] =
      ({ ctxCount with arg_token := [{ long_name := some ("count").data, short_name := countDesc.short_name, arg := [vex_value.int_arg (decValue ("42").data)], arg_type := VEX_ARG_TYPE_INT }] }, true) ∧
    vex_get_token { ctxCount with arg_token := [{ long_name := some ("count").data, short_name := countDesc.short_name, arg := [vex_value.int_arg (decValue ("42").data)], arg_type := VEX_ARG_TYPE_INT }] } 0 =
      some { long_name := some ("count").data, short_name := countDesc.short_name, arg := [vex_value.int_arg (decValue ("42").data)], arg_type := VEX_ARG_TYPE_INT } :=
  C2_long_value_round_trip ctxCount (("p").data) (("count").data) (("42").data) 2 countDesc
    (by decide) rfl rfl rfl (by decide) (by decide)

/-- C2 counterexample: the context registers the Integer long option vers
(after the default Flag version); parsing ["--vers=42"] succeeds but matches
the earlier descriptor version (first prefix match wins), yielding one Flag
token with no values instead of an Integer token holding 42. -/
theorem C2_counterexample :
    (vex_parse ctxVers [("p").data, ("--vers=42").data]).2 = true ∧
    (vex_parse ctxVers [("p").data, ("--vers=42").data]).1.arg_token =
      [{ long_name := some ("version").data, short_name := 'v', arg := [],
         arg_type := VEX_ARG_TYPE_FLAG }] ∧
    VEX_ARG_TYPE_FLAG ≠ VEX_ARG_TYPE_INT :=
  ⟨rfl, rfl, by decide⟩
